import Mathlib

/-!
Verification of the ds005863 file-fixing scripts.

The repository consists of three Python scripts:
  * `cleanup_and_fix.py` — the authoritative version: a piecewise filename
    mapper `get_expected_filename`, a walker `recreate_correct_files` that
    copies each subject's vmrk/eeg recording files to mapper-derived names,
    and a cleanup pass `cleanup_incorrect_files`.
  * `fix_vmrk_files.py` — an earlier variant of the walker with a coarser
    mapper (single `+13` offset for subjects 1–96, `SUBJECT_` fallback).
  * `cleanup_files.py` — deletes all files matching `COCOA_*_VO.*` or
    `SASA_*_VO.*` under the root, counting deletions and errors.

This file embeds those scripts shallowly: the filesystem is a `Root`
(top-level files plus a list of subject directories, each with an optional
`eeg` subdirectory holding files), file contents and modification times are
explicit fields, and the possibility of an I/O failure during a copy or a
delete is an oracle passed to the embedded functions.
-/

/-- Unfolding of `String` append to `List Char` append. -/
theorem str_data_append (s t : String) : (s ++ t).data = s.data ++ t.data := by
  cases s; cases t; rfl

/-- Python's `f-string` `03d` formatting: the decimal rendering of `n`,
left-padded with `'0'` to a minimum width of 3 (`str.zfill` semantics).
This is the code-side formatting used by `get_expected_filename`. -/
def py03d (n : Nat) : String :=
  String.mk (List.replicate (3 - (Nat.repr n).length) '0') ++ Nat.repr n

/-- Spec-side rendering of `\x7bn:03d\x7d` for `n < 1000`: the three decimal
digits of `n`, most significant first, zero-padded to width 3.  Written
independently of `Nat.repr` so that agreement with `py03d` is a theorem,
not a definition. -/
def specPad3 (n : Nat) : String :=
  String.mk [Nat.digitChar (n / 100 % 10), Nat.digitChar (n / 10 % 10),
    Nat.digitChar (n % 10)]

/-- For all the values the mapper can feed to the formatter (they are all
below 128), the code-side formatting agrees with the spec-side one. -/
theorem py03d_eq_specPad3 : ∀ m : Nat, m < 128 → py03d m = specPad3 m := by
  decide

/-- The data of `py03d m` has length 3 for every value the mapper can
produce. -/
theorem py03d_data_length : ∀ m : Nat, m < 128 → (py03d m).data.length = 3 := by
  decide

/-- Embedding of `get_expected_filename` from `cleanup_and_fix.py` (lines 36–61), the
piecewise mapper the spec declares authoritative.  The subject number is the
integer parsed from the directory name; parsing is done at the call sites
(`pyInt` below), faithfully to `int(subject_dir.name.split('-')[1])`.
Returns `none` for the "unknown subject range" sentinel (Python `None`). -/
def get_expected_filename (subject_num : Nat) (file_type : String) : Option String :=
  if 1 ≤ subject_num ∧ subject_num ≤ 56 then
    some ("COCOA_" ++ py03d (subject_num + 12) ++ "_VO." ++ file_type)
  else if 57 ≤ subject_num ∧ subject_num ≤ 77 then
    some ("COCOA_" ++ py03d (subject_num + 13) ++ "_VO." ++ file_type)
  else if 78 ≤ subject_num ∧ subject_num ≤ 96 then
    some ("COCOA_" ++ py03d (subject_num + 14) ++ "_VO." ++ file_type)
  else if 111 ≤ subject_num ∧ subject_num ≤ 127 then
    some ("SASA_" ++ py03d (subject_num - 96) ++ "_VO." ++ file_type)
  else
    none

/-- Embedding of `get_expected_filename` from the earlier `fix_vmrk_files.py` (lines
15–39): a single `+13` offset for subjects 1–96 and a total `SUBJECT_`
fallback instead of a sentinel.  The spec's design notes flag this
discrepancy and follow `cleanup_and_fix.py`; this variant is embedded for
reference. -/
def get_expected_filename_fv (subject_num : Nat) (file_type : String) : String :=
  if 1 ≤ subject_num ∧ subject_num ≤ 96 then
    "COCOA_" ++ py03d (subject_num + 13) ++ "_VO." ++ file_type
  else if 111 ≤ subject_num ∧ subject_num ≤ 127 then
    "SASA_" ++ py03d (subject_num - 96) ++ "_VO." ++ file_type
  else
    "SUBJECT_" ++ py03d subject_num ++ "_VO." ++ file_type

/-- C1: for every subject index `i` and extension `ext`, the filename mapper
returns `COCOA_(i+12)_VO.ext` (index zero-padded to width 3) when
`1 ≤ i ≤ 56`, `COCOA_(i+13)_VO.ext` when `57 ≤ i ≤ 77`, `COCOA_(i+14)_VO.ext`
when `78 ≤ i ≤ 96`, and `SASA_(i-96)_VO.ext` when `111 ≤ i ≤ 127`, with the
extension copied verbatim into the result. -/
theorem c1_mapper_piecewise (i : Nat) (ext : String) :
    (1 ≤ i → i ≤ 56 →
      get_expected_filename i ext = some ("COCOA_" ++ specPad3 (i + 12) ++ "_VO." ++ ext)) ∧
    (57 ≤ i → i ≤ 77 →
      get_expected_filename i ext = some ("COCOA_" ++ specPad3 (i + 13) ++ "_VO." ++ ext)) ∧
    (78 ≤ i → i ≤ 96 →
      get_expected_filename i ext = some ("COCOA_" ++ specPad3 (i + 14) ++ "_VO." ++ ext)) ∧
    (111 ≤ i → i ≤ 127 →
      get_expected_filename i ext = some ("SASA_" ++ specPad3 (i - 96) ++ "_VO." ++ ext)) := by
  refine ⟨fun h1 h2 => ?_, fun h1 h2 => ?_, fun h1 h2 => ?_, fun h1 h2 => ?_⟩ <;>
    unfold get_expected_filename
  · rw [if_pos ⟨h1, h2⟩, py03d_eq_specPad3 (i + 12) (by omega)]
  · rw [if_neg (by omega), if_pos ⟨h1, h2⟩, py03d_eq_specPad3 (i + 13) (by omega)]
  · rw [if_neg (by omega), if_neg (by omega), if_pos ⟨h1, h2⟩,
      py03d_eq_specPad3 (i + 14) (by omega)]
  · rw [if_neg (by omega), if_neg (by omega), if_neg (by omega), if_pos ⟨h1, h2⟩,
      py03d_eq_specPad3 (i - 96) (by omega)]

/-- Witness for C1: concrete instances in each of the four ranges. -/
theorem c1_mapper_piecewise_w :
    (1 ≤ 1 ∧ 1 ≤ 56 ∧ get_expected_filename 1 "vmrk" = some "COCOA_013_VO.vmrk") ∧
    (57 ≤ 57 ∧ 57 ≤ 77 ∧ get_expected_filename 57 "vmrk" = some "COCOA_070_VO.vmrk") ∧
    (78 ≤ 78 ∧ 78 ≤ 96 ∧ get_expected_filename 78 "eeg" = some "COCOA_092_VO.eeg") ∧
    (111 ≤ 115 ∧ 115 ≤ 127 ∧ get_expected_filename 115 "eeg" = some "SASA_019_VO.eeg") := by
  refine ⟨⟨by decide, by decide, ?_⟩, ⟨by decide, by decide, ?_⟩,
    ⟨by decide, by decide, ?_⟩, ⟨by decide, by decide, ?_⟩⟩
  · exact ((c1_mapper_piecewise 1 "vmrk").1 (by decide) (by decide)).trans (by decide)
  · exact ((c1_mapper_piecewise 57 "vmrk").2.1 (by decide) (by decide)).trans (by decide)
  · exact ((c1_mapper_piecewise 78 "eeg").2.2.1 (by decide) (by decide)).trans (by decide)
  · exact ((c1_mapper_piecewise 115 "eeg").2.2.2 (by decide) (by decide)).trans (by decide)

/-- A file in a directory: name, byte content, and the metadata
(modification time) that `shutil.copy2` preserves. -/
structure FileEntry where
  fname : String
  content : String
  mtime : Nat
deriving DecidableEq

/-- A top-level directory entry of the dataset root: its name, its optional
`eeg` subdirectory (with the files inside, in directory-listing order), and
any other files directly inside it. -/
structure SubjectDir where
  name : String
  eeg : Option (List FileEntry)
  subOther : List FileEntry
deriving DecidableEq

/-- The dataset root: its immediate subdirectories and its top-level
files. -/
structure Root where
  subjects : List SubjectDir
  rootFiles : List FileEntry
deriving DecidableEq

/-- Python `name.startswith(pre)` on the character lists. -/
def strStarts (pre s : String) : Bool := pre.data.isPrefixOf s.data

/-- Python `name.split('-')[1]`: the text between the first and the second
dash of `name` (used only on names that start with `"sub-"`, which always
contain a dash). -/
def subjectToken (name : String) : String :=
  String.mk ((name.data.splitOn '-').getD 1 [])

/-- The characters Python's `int()` ignores around an integer literal
(`Py_UNICODE_ISSPACE`, CPython 3.11). -/
def pyWhitespace (c : Char) : Bool :=
  (0x9 ≤ c.toNat && c.toNat ≤ 0xD) || c.toNat = 0x20 || c.toNat = 0x85 ||
  c.toNat = 0xA0 || c.toNat = 0x1680 ||
  (0x2000 ≤ c.toNat && c.toNat ≤ 0x200A) || c.toNat = 0x2028 ||
  c.toNat = 0x2029 || c.toNat = 0x202F || c.toNat = 0x205F || c.toNat = 0x3000

/-- The zero digit of every run of Unicode decimal digits (category `Nd`,
as shipped with CPython 3.11); every such run is ten consecutive code
points valued 0 through 9, and these 66 runs are exactly the characters
`int()` accepts as digits. -/
def ndZeroStarts : List Nat :=
  [0x30, 0x660, 0x6F0, 0x7C0, 0x966, 0x9E6, 0xA66, 0xAE6,
   0xB66, 0xBE6, 0xC66, 0xCE6, 0xD66, 0xDE6, 0xE50, 0xED0,
   0xF20, 0x1040, 0x1090, 0x17E0, 0x1810, 0x1946, 0x19D0, 0x1A80,
   0x1A90, 0x1B50, 0x1BB0, 0x1C40, 0x1C50, 0xA620, 0xA8D0, 0xA900,
   0xA9D0, 0xA9F0, 0xAA50, 0xABF0, 0xFF10, 0x104A0, 0x10D30, 0x11066,
   0x110F0, 0x11136, 0x111D0, 0x112F0, 0x11450, 0x114D0, 0x11650, 0x116C0,
   0x11730, 0x118E0, 0x11950, 0x11C50, 0x11D50, 0x11DA0, 0x16A60, 0x16AC0,
   0x16B50, 0x1D7CE, 0x1D7D8, 0x1D7E2, 0x1D7EC, 0x1D7F6, 0x1E140, 0x1E2F0,
   0x1E950, 0x1FBF0]

/-- The decimal value `int()` assigns to a character, when it is a Unicode
decimal digit. -/
def pyDigitVal (c : Char) : Option Nat :=
  ndZeroStarts.findSome? (fun s =>
    if s ≤ c.toNat ∧ c.toNat < s + 10 then some (c.toNat - s) else none)

/-- The `digitpart` of Python's integer-literal grammar:
`digit (["_"] digit)*`, i.e. single underscores strictly between digits.
The flag records that the next character must be a digit (true at the
start and right after an underscore). -/
def pyDigitsLoop : Nat → Bool → List Char → Option Nat
  | acc, false, [] => some acc
  | _, true, [] => none
  | acc, needDigit, c :: cs =>
    match pyDigitVal c with
    | some d => pyDigitsLoop (acc * 10 + d) false cs
    | none =>
      if c = '_' && !needDigit then pyDigitsLoop acc true cs
      else none

/-- Strip the surrounding whitespace `int()` ignores. -/
def pyStrip (l : List Char) : List Char :=
  ((l.dropWhile pyWhitespace).reverse.dropWhile pyWhitespace).reverse

/-- Python `int()` on the extracted token: optional surrounding
whitespace, an optional ASCII sign, then a `digitpart` of Unicode decimal
digits with single underscores between digits; anything else raises
`ValueError` (modelled as `none`).  The token is the text strictly between
the first and the second dash of the directory name
(`subjectToken_no_dash` below), so the minus sign — itself a dash — can
never occur in it and `int()` can only return a non-negative value here;
accordingly the model is `Nat`-valued, and a leading minus, impossible at
this call site, is mapped to the unused-no-parse case. -/
def pyInt (s : String) : Option Nat :=
  match pyStrip s.data with
  | '+' :: rest => pyDigitsLoop 0 true rest
  | '-' :: _ => none
  | rest => pyDigitsLoop 0 true rest

/-- Segments produced by `splitOnP` contain no separator. -/
theorem mem_splitOnP_not_sep {α : Type} [DecidableEq α] (p : α → Bool) :
    ∀ (l : List α) (seg : List α), seg ∈ l.splitOnP p → ∀ a ∈ seg, p a = false := by
  intro l
  induction l with
  | nil =>
    intro seg hseg a ha
    rw [List.splitOnP_nil] at hseg
    simp only [List.mem_singleton] at hseg
    subst hseg
    cases ha
  | cons x xs ih =>
    intro seg hseg a ha
    rw [List.splitOnP_cons] at hseg
    cases hx : p x with
    | true =>
      rw [hx] at hseg
      simp only [if_true] at hseg
      rcases List.mem_cons.mp hseg with h | h
      · subst h
        cases ha
      · exact ih seg h a ha
    | false =>
      rw [hx] at hseg
      simp only [Bool.false_eq_true, if_false] at hseg
      cases hsplit : xs.splitOnP p with
      | nil => exact absurd hsplit (List.splitOnP_ne_nil p xs)
      | cons hseg0 t =>
        rw [hsplit, List.modifyHead_cons] at hseg
        rcases List.mem_cons.mp hseg with hh | ht
        · subst hh
          rcases List.mem_cons.mp ha with rfl | ha2
          · exact hx
          · exact ih hseg0 (hsplit ▸ List.mem_cons_self hseg0 t) a ha2
        · exact ih seg (hsplit ▸ List.mem_cons.mpr (Or.inr ht)) a ha
  
/-- The token `int()` is applied to lies strictly between the first and
second dash of the directory name, so it never contains a dash; in
particular `int()` never sees a minus sign at this call site. -/
theorem subjectToken_no_dash (name : String) : '-' ∉ (subjectToken name).data := by
  intro hmem
  have hmem2 : '-' ∈ (name.data.splitOn '-').getD 1 [] := hmem
  rw [List.getD_eq_getElem?_getD] at hmem2
  cases hget : (name.data.splitOn '-')[1]? with
  | none =>
    rw [hget] at hmem2
    cases hmem2
  | some seg =>
    rw [hget] at hmem2
    simp only [Option.getD_some] at hmem2
    have hsegmem : seg ∈ name.data.splitOn '-' := List.getElem?_mem hget
    have := mem_splitOnP_not_sep (· == '-') name.data seg hsegmem '-' hmem2
    simp at this

/-- The glob `*_task-visualoddball_eeg.vmrk`: a name matches iff it ends
with the literal suffix (the `*` matches any, possibly empty, run of
non-separator characters). -/
def globVmrk (name : String) : Bool :=
  "_task-visualoddball_eeg.vmrk".data.isSuffixOf name.data

/-- The glob `*_task-visualoddball_eeg.eeg`. -/
def globEeg (name : String) : Bool :=
  "_task-visualoddball_eeg.eeg".data.isSuffixOf name.data

/-- Writing a file into a directory (`shutil.copy2` target side): an
existing file of that name is overwritten in place, otherwise the file is
appended to the listing. -/
def writeFile (files : List FileEntry) (name content : String) (mtime : Nat) :
    List FileEntry :=
  if files.any (fun f => decide (f.fname = name)) then
    files.map (fun f => if f.fname = name then ⟨name, content, mtime⟩ else f)
  else
    files ++ [⟨name, content, mtime⟩]

/-- Looking a file up by name in a directory listing. -/
def findFile (files : List FileEntry) (name : String) : Option FileEntry :=
  files.find? (fun f => decide (f.fname = name))

/-- Summary counters of the walker:
`(fixed_vmrk_count, fixed_eeg_count, error_count)`. -/
abbrev Counts := Nat × Nat × Nat

/-- The per-subject body of `recreate_correct_files` (`cleanup_and_fix.py`
lines 77–123).  `fail subjectName targetName` tells whether the
`shutil.copy2` call writing `targetName` inside this subject's `eeg`
directory raises an I/O error (the `except` branch of the script).  All
skips print a warning and touch nothing; an exception inside the `try`
block increments only `error_count`.  A `ValueError` from `int()` inside
`get_expected_filename` and the `TypeError` a `None` eeg-name would cause
at `eeg_dir / expected_eeg_name` are both caught by the same `except`. -/
def processSubject (fail : String → String → Bool) (d : SubjectDir) :
    SubjectDir × Counts :=
  match d.eeg with
  | none => (d, (0, 0, 0))
  | some files =>
    match files.filter (fun f => globVmrk f.fname) with
    | [] => (d, (0, 0, 0))
    | v :: _ =>
      match files.filter (fun f => globEeg f.fname) with
      | [] => (d, (0, 0, 0))
      | e :: _ =>
        match pyInt (subjectToken d.name) with
        | none => (d, (0, 0, 1))
        | some n =>
          match get_expected_filename n "vmrk" with
          | none => (d, (0, 0, 0))
          | some tv =>
            if fail d.name tv then (d, (0, 0, 1))
            else
              let files1 := writeFile files tv v.content v.mtime
              match get_expected_filename n "eeg" with
              | none => ({ d with eeg := some files1 }, (1, 0, 1))
              | some te =>
                if fail d.name te then ({ d with eeg := some files1 }, (1, 0, 1))
                else
                  ({ d with eeg := some (writeFile files1 te e.content e.mtime) },
                   (1, 1, 0))

/-- Replacing the directory of a given name inside the root (the effect of
a subject's file writes on the shared filesystem). -/
def rootUpdate (st : Root) (name : String) (d' : SubjectDir) : Root :=
  { st with subjects := st.subjects.map (fun e => if e.name = name then d' else e) }

/-- The main loop of `recreate_correct_files`: process the subject
directories in order, threading the filesystem and accumulating the
summary counters. -/
def processDirs (fail : String → String → Bool) :
    List SubjectDir → Root → Root × Counts
  | [], st => (st, (0, 0, 0))
  | d :: ds, st =>
    let pr := processSubject fail d
    let rest := processDirs fail ds (rootUpdate st d.name pr.1)
    (rest.1, pr.2 + rest.2)

/-- The sort key `int(x.name.split('-')[1])`; total function used only
after the guard that every key parses. -/
def subKey (d : SubjectDir) : Nat := (pyInt (subjectToken d.name)).getD 0

/-- Embedding of `recreate_correct_files` (`cleanup_and_fix.py` lines 63–135): list the
immediate subdirectories whose name starts with `"sub-"`, sort them by
numeric index — Python's `sort(key=int(...))` raises `ValueError` before
any subject is processed when some suffix is not a numeral, modelled as
`none` — then process each subject in order.  Python's sort is a stable
sort by the key, modelled with a stable insertion sort. -/
def recreate_correct_files (fail : String → String → Bool) (root : Root) :
    Option (Root × Counts) :=
  let dirs := root.subjects.filter (fun d => strStarts "sub-" d.name)
  if dirs.all (fun d => (pyInt (subjectToken d.name)).isSome) then
    some (processDirs fail (dirs.insertionSort (fun a b => subKey a ≤ subKey b)) root)
  else
    none

/-- Process exit status of the scripts: the `__main__` blocks call the
worker functions and never invoke `sys.exit`, so a completed run exits 0
and only an uncaught exception (the aborted run, `none`) yields a nonzero
status. -/
def script_exit (res : Option (Root × Counts)) : Nat :=
  match res with
  | some _ => 0
  | none => 1

/-- Outside every declared range the mapper hits the final `else` and
returns the sentinel. -/
theorem mapper_none_of_out (n : Nat) (ext : String)
    (hn : n < 1 ∨ (97 ≤ n ∧ n ≤ 110) ∨ 127 < n) :
    get_expected_filename n ext = none := by
  unfold get_expected_filename
  rw [if_neg (by omega), if_neg (by omega), if_neg (by omega), if_neg (by omega)]

/-- C2: for every subject index outside all declared ranges (below 1,
97–110, above 127) and every extension, the mapper returns the no-mapping
sentinel `none`, and the walker treats a subject whose directory name
parses to such an index as a skip with a warning: its directory is left
unchanged and no counter moves. -/
theorem c2_out_of_range_skips (n : Nat) (ext : String)
    (fail : String → String → Bool) (d : SubjectDir)
    (hn : n < 1 ∨ (97 ≤ n ∧ n ≤ 110) ∨ 127 < n) :
    get_expected_filename n ext = none ∧
    (pyInt (subjectToken d.name) = some n →
      processSubject fail d = (d, (0, 0, 0))) := by
  refine ⟨mapper_none_of_out n ext hn, fun hp => ?_⟩
  unfold processSubject
  split
  · rfl
  split
  · rfl
  split
  · rfl
  split
  · rename_i heq
    rw [hp] at heq
    cases heq
  · rename_i n' heq
    rw [hp] at heq
    cases heq
    split
    · rfl
    · rename_i tv heq2
      rw [mapper_none_of_out n "vmrk" hn] at heq2
      cases heq2

/-- Witness for C2: subject index 100 (in the 97–110 gap) with a concrete
directory holding both source files is skipped untouched. -/
theorem c2_out_of_range_skips_w :
    ((100 : Nat) < 1 ∨ (97 ≤ 100 ∧ (100 : Nat) ≤ 110) ∨ 127 < (100 : Nat)) ∧
    get_expected_filename 100 "vmrk" = none ∧
    processSubject (fun _ _ => false)
      ⟨"sub-100",
        some [⟨"sub-100_task-visualoddball_eeg.vmrk", "V", 0⟩,
              ⟨"sub-100_task-visualoddball_eeg.eeg", "E", 0⟩], []⟩ =
      (⟨"sub-100",
        some [⟨"sub-100_task-visualoddball_eeg.vmrk", "V", 0⟩,
              ⟨"sub-100_task-visualoddball_eeg.eeg", "E", 0⟩], []⟩, (0, 0, 0)) := by
  refine ⟨by decide, ?_, ?_⟩
  · exact (c2_out_of_range_skips 100 "vmrk" (fun _ _ => false)
      ⟨"sub-100", none, []⟩ (by omega)).1
  · exact (c2_out_of_range_skips 100 "vmrk" (fun _ _ => false) _ (by omega)).2 (by decide)

/-- C9: whether the mapper returns the sentinel depends only on the subject
number, never on the extension, so the walker's single `None` check on the
vmrk name covers the later, unchecked eeg name: it can never be `None` at
its use site. -/
theorem c9_sentinel_ext_independent (n : Nat) (e1 e2 : String) :
    ((get_expected_filename n e1).isSome ↔ (get_expected_filename n e2).isSome) ∧
    (get_expected_filename n "vmrk" ≠ none → get_expected_filename n "eeg" ≠ none) := by
  unfold get_expected_filename
  constructor
  · split_ifs <;> simp
  · split_ifs <;> simp

/-- Witness for C9 at subject number 5. -/
theorem c9_sentinel_ext_independent_w :
    get_expected_filename 5 "vmrk" ≠ none ∧ get_expected_filename 5 "eeg" ≠ none :=
  ⟨by decide, (c9_sentinel_ext_independent 5 "a" "b").2 (by decide)⟩

/-- The claim's notion of a decimal numeral: a nonempty string of decimal
digits and nothing else. -/
def isDecimalNumeral (s : String) : Bool :=
  !s.data.isEmpty && s.data.all (·.isDigit)

/-- A root whose subject directory name carries an underscore-separated
token: not a decimal numeral, yet accepted by Python's `int()`. -/
def c10cexRoot : Root :=
  ⟨[⟨"sub-1_2", some [⟨"sub-1_2_task-visualoddball_eeg.vmrk", "MV", 1⟩,
      ⟨"sub-1_2_task-visualoddball_eeg.eeg", "ME", 2⟩], []⟩], []⟩

/-- Counterexample to C10: the token of `sub-1_2` is not a decimal
numeral, yet the run does not abort with a `ValueError` — Python's `int()`
accepts underscore separators (`int("1_2") = 12`), the sort key is
computed, and the subject is fully processed, its two target files copied
(12 maps to `COCOA_024_VO`). -/
theorem c10_cex_underscore_token_completes :
    isDecimalNumeral (subjectToken "sub-1_2") = false ∧
    recreate_correct_files (fun _ _ => false) c10cexRoot =
      some (⟨[⟨"sub-1_2", some [⟨"sub-1_2_task-visualoddball_eeg.vmrk", "MV", 1⟩,
          ⟨"sub-1_2_task-visualoddball_eeg.eeg", "ME", 2⟩,
          ⟨"COCOA_024_VO.vmrk", "MV", 1⟩,
          ⟨"COCOA_024_VO.eeg", "ME", 2⟩], []⟩], []⟩, (1, 1, 0)) := by
  constructor
  · decide
  · decide

/-- C10 amended: the walker admits every immediate subdirectory whose name
starts with `"sub-"` and sorts them with `int()` of the text after the
first dash as key; the run aborts with an uncaught `ValueError` before any
subject is processed — no file is copied, there is no resulting
filesystem — exactly when some admitted name's token fails the grammar of
Python's `int()` (optional surrounding whitespace, an optional sign, then
Unicode decimal digits with single underscores between digits), and
completes normally otherwise.  A token such as `extra` still aborts the
run, but tokens such as `1_2` parse and do not. -/
theorem c10_amended_int_grammar_aborts (fail : String → String → Bool) (root : Root) :
    recreate_correct_files fail root = none ↔
      ∃ d ∈ root.subjects.filter (fun d => strStarts "sub-" d.name),
        pyInt (subjectToken d.name) = none := by
  unfold recreate_correct_files
  by_cases hall : (root.subjects.filter (fun d => strStarts "sub-" d.name)).all
      (fun d => (pyInt (subjectToken d.name)).isSome) = true
  · rw [if_pos hall]
    simp only [List.all_eq_true] at hall
    constructor
    · intro h
      cases h
    · rintro ⟨d, hd, hnone⟩
      have hs := hall d hd
      rw [hnone] at hs
      cases hs
  · rw [if_neg hall]
    constructor
    · intro _
      rw [List.all_eq_true] at hall
      push_neg at hall
      obtain ⟨d, hd, hns⟩ := hall
      refine ⟨d, hd, ?_⟩
      cases hopt : pyInt (subjectToken d.name) with
      | none => rfl
      | some m =>
        rw [hopt] at hns
        exact absurd rfl hns
    · intro _
      rfl

/-- A concrete root for the exit-status counterexample: one well-formed
subject whose copies all fail with an I/O error. -/
def c7root : Root :=
  ⟨[⟨"sub-001",
      some [⟨"sub-001_task-visualoddball_eeg.vmrk", "V", 10⟩,
            ⟨"sub-001_task-visualoddball_eeg.eeg", "E", 11⟩], []⟩], []⟩

/-- Counterexample to C7: a full run (the result is `some`) ends with
`error_count = 1 > 0`, yet the process exit status is 0 — the scripts'
`__main__` blocks never call `sys.exit`, so a completed run always exits 0
regardless of the error count. -/
theorem c7_cex_exit_zero_despite_errors :
    (recreate_correct_files (fun _ _ => true) c7root).map (fun p => p.2.2.2) = some 1 ∧
    script_exit (recreate_correct_files (fun _ _ => true) c7root) = 0 := by
  constructor
  · decide
  · decide

/-- C7 amended: after every full (non-aborted) run the tool exits with
status zero, whatever `error_count` is; a nonzero status arises only when
the run aborts with an uncaught exception (`recreate_correct_files`
returning `none`). -/
theorem c7_amended_exit_always_zero (fail : String → String → Bool) (root : Root)
    (p : Root × Counts) (h : recreate_correct_files fail root = some p) :
    script_exit (recreate_correct_files fail root) = 0 := by
  rw [h]
  rfl

/-- Witness for the amended C7 at a concrete failing run. -/
theorem c7_amended_exit_always_zero_w :
    recreate_correct_files (fun _ _ => true) c7root = some (c7root, (0, 0, 1)) ∧
    script_exit (recreate_correct_files (fun _ _ => true) c7root) = 0 := by
  refine ⟨by decide, ?_⟩
  exact c7_amended_exit_always_zero (fun _ _ => true) c7root (c7root, (0, 0, 1)) (by decide)

/-- Length of an append of strings, on the character lists. -/
theorem str_length_append (a b : String) :
    (a ++ b).data.length = a.data.length + b.data.length := by
  rw [str_data_append, List.length_append]

/-- Shape of every mapper output: a series tag, three digits, `_VO.`, and
the extension. -/
theorem get_eq_forms (n : Nat) (ext s : String)
    (h : get_expected_filename n ext = some s) :
    ∃ m, m < 128 ∧
      (s = "COCOA_" ++ py03d m ++ "_VO." ++ ext ∨
       s = "SASA_" ++ py03d m ++ "_VO." ++ ext) := by
  unfold get_expected_filename at h
  split_ifs at h with h1 h2 h3 h4
  · exact ⟨n + 12, by omega, Or.inl (Option.some.inj h).symm⟩
  · exact ⟨n + 13, by omega, Or.inl (Option.some.inj h).symm⟩
  · exact ⟨n + 14, by omega, Or.inl (Option.some.inj h).symm⟩
  · exact ⟨n - 96, by omega, Or.inr (Option.some.inj h).symm⟩

/-- For one subject number the vmrk and eeg targets come from the same
branch; their name lengths are 17/16 (COCOA) or 16/15 (SASA), so the two
target names always differ. -/
theorem mapper_pair (n : Nat) (tv te : String)
    (h1 : get_expected_filename n "vmrk" = some tv)
    (h2 : get_expected_filename n "eeg" = some te) :
    tv.data.length ≤ 17 ∧ te.data.length ≤ 16 ∧ tv ≠ te := by
  unfold get_expected_filename at h1 h2
  split_ifs at h1 h2 with c1 c2 c3 c4
  case pos =>
    have htv := (Option.some.inj h1).symm
    have hte := (Option.some.inj h2).symm
    subst htv; subst hte
    have ltv : ("COCOA_" ++ py03d (n + 12) ++ "_VO." ++ "vmrk").data.length = 17 := by
      rw [str_length_append, str_length_append, str_length_append,
        py03d_data_length _ (by omega)]
      decide
    have lte : ("COCOA_" ++ py03d (n + 12) ++ "_VO." ++ "eeg").data.length = 16 := by
      rw [str_length_append, str_length_append, str_length_append,
        py03d_data_length _ (by omega)]
      decide
    exact ⟨by omega, by omega, fun heq => by
      have := congrArg (fun s => s.data.length) heq
      simp only [ltv, lte] at this
      omega⟩
  case pos =>
    have htv := (Option.some.inj h1).symm
    have hte := (Option.some.inj h2).symm
    subst htv; subst hte
    have ltv : ("COCOA_" ++ py03d (n + 13) ++ "_VO." ++ "vmrk").data.length = 17 := by
      rw [str_length_append, str_length_append, str_length_append,
        py03d_data_length _ (by omega)]
      decide
    have lte : ("COCOA_" ++ py03d (n + 13) ++ "_VO." ++ "eeg").data.length = 16 := by
      rw [str_length_append, str_length_append, str_length_append,
        py03d_data_length _ (by omega)]
      decide
    exact ⟨by omega, by omega, fun heq => by
      have := congrArg (fun s => s.data.length) heq
      simp only [ltv, lte] at this
      omega⟩
  case pos =>
    have htv := (Option.some.inj h1).symm
    have hte := (Option.some.inj h2).symm
    subst htv; subst hte
    have ltv : ("COCOA_" ++ py03d (n + 14) ++ "_VO." ++ "vmrk").data.length = 17 := by
      rw [str_length_append, str_length_append, str_length_append,
        py03d_data_length _ (by omega)]
      decide
    have lte : ("COCOA_" ++ py03d (n + 14) ++ "_VO." ++ "eeg").data.length = 16 := by
      rw [str_length_append, str_length_append, str_length_append,
        py03d_data_length _ (by omega)]
      decide
    exact ⟨by omega, by omega, fun heq => by
      have := congrArg (fun s => s.data.length) heq
      simp only [ltv, lte] at this
      omega⟩
  case pos =>
    have htv := (Option.some.inj h1).symm
    have hte := (Option.some.inj h2).symm
    subst htv; subst hte
    have ltv : ("SASA_" ++ py03d (n - 96) ++ "_VO." ++ "vmrk").data.length = 16 := by
      rw [str_length_append, str_length_append, str_length_append,
        py03d_data_length _ (by omega)]
      decide
    have lte : ("SASA_" ++ py03d (n - 96) ++ "_VO." ++ "eeg").data.length = 15 := by
      rw [str_length_append, str_length_append, str_length_append,
        py03d_data_length _ (by omega)]
      decide
    exact ⟨by omega, by omega, fun heq => by
      have := congrArg (fun s => s.data.length) heq
      simp only [ltv, lte] at this
      omega⟩

/-- A name matching the vmrk glob is at least 28 characters long. -/
theorem glob_vmrk_length (name : String) (h : globVmrk name = true) :
    28 ≤ name.data.length := by
  unfold globVmrk at h
  have hs : "_task-visualoddball_eeg.vmrk".data <:+ name.data := by simpa using h
  have h28 : ("_task-visualoddball_eeg.vmrk".data).length = 28 := by decide
  have := hs.length_le
  omega

/-- A name matching the eeg glob is at least 27 characters long. -/
theorem glob_eeg_length (name : String) (h : globEeg name = true) :
    27 ≤ name.data.length := by
  unfold globEeg at h
  have hs : "_task-visualoddball_eeg.eeg".data <:+ name.data := by simpa using h
  have h27 : ("_task-visualoddball_eeg.eeg".data).length = 27 := by decide
  have := hs.length_le
  omega

/-- Mapper targets are too short to match either source glob. -/
theorem target_not_glob (t : String) (hlen : t.data.length ≤ 17) :
    globVmrk t = false ∧ globEeg t = false := by
  constructor
  · cases h : globVmrk t with
    | false => rfl
    | true => exact absurd (glob_vmrk_length t h) (by omega)
  · cases h : globEeg t with
    | false => rfl
    | true => exact absurd (glob_eeg_length t h) (by omega)

/-- A file whose name differs from the written one survives a write. -/
theorem mem_writeFile_of_mem (files : List FileEntry) (name c : String) (m : Nat)
    (f : FileEntry) (hf : f ∈ files) (hne : f.fname ≠ name) :
    f ∈ writeFile files name c m := by
  unfold writeFile
  by_cases hany : (files.any fun g => decide (g.fname = name)) = true
  · rw [if_pos hany]
    exact List.mem_map.mpr ⟨f, hf, by rw [if_neg hne]⟩
  · rw [if_neg hany]
    exact List.mem_append_left _ hf

/-- The written file is in the resulting listing. -/
theorem self_mem_writeFile (files : List FileEntry) (name c : String) (m : Nat) :
    (⟨name, c, m⟩ : FileEntry) ∈ writeFile files name c m := by
  unfold writeFile
  by_cases hany : (files.any fun g => decide (g.fname = name)) = true
  · rw [if_pos hany]
    obtain ⟨g, hg, hgname⟩ := List.any_eq_true.mp hany
    have hn : g.fname = name := of_decide_eq_true hgname
    exact List.mem_map.mpr ⟨g, hg, by rw [if_pos hn]⟩
  · rw [if_neg hany]
    exact List.mem_append_right _ (List.mem_singleton_self _)

/-- After a write, every file bearing the written name is the written
file. -/
theorem mem_writeFile_named (files : List FileEntry) (name c : String) (m : Nat)
    (f : FileEntry) (hf : f ∈ writeFile files name c m) (hname : f.fname = name) :
    f = ⟨name, c, m⟩ := by
  unfold writeFile at hf
  by_cases hany : (files.any fun g => decide (g.fname = name)) = true
  · rw [if_pos hany] at hf
    obtain ⟨g, hg, hgf⟩ := List.mem_map.mp hf
    by_cases h : g.fname = name
    · rw [if_pos h] at hgf
      exact hgf.symm
    · rw [if_neg h] at hgf
      rw [hgf] at h
      exact absurd hname h
  · rw [if_neg hany] at hf
    rcases List.mem_append.mp hf with hl | hr
    · exact absurd (List.any_eq_true.mpr ⟨f, hl, by simp [hname]⟩) hany
    · simpa using hr

/-- A file not bearing the written name was already present before the
write. -/
theorem mem_writeFile_other (files : List FileEntry) (name c : String) (m : Nat)
    (f : FileEntry) (hf : f ∈ writeFile files name c m) (hname : f.fname ≠ name) :
    f ∈ files := by
  unfold writeFile at hf
  by_cases hany : (files.any fun g => decide (g.fname = name)) = true
  · rw [if_pos hany] at hf
    obtain ⟨g, hg, hgf⟩ := List.mem_map.mp hf
    by_cases h : g.fname = name
    · rw [if_pos h] at hgf
      exact absurd (by rw [← hgf]) hname
    · rw [if_neg h] at hgf
      exact hgf ▸ hg
  · rw [if_neg hany] at hf
    rcases List.mem_append.mp hf with hl | hr
    · exact hl
    · simp only [List.mem_singleton] at hr
      exact absurd (by rw [hr]) hname

/-- Auxiliary: looking the written name up in the overwrite branch. -/
theorem find_map_replace (name c : String) (m : Nat) :
    ∀ l : List FileEntry, l.any (fun g => decide (g.fname = name)) = true →
      (l.map (fun g => if g.fname = name then (⟨name, c, m⟩ : FileEntry) else g)).find?
        (fun f => decide (f.fname = name)) = some ⟨name, c, m⟩ := by
  intro l
  induction l with
  | nil => intro h; cases h
  | cons g gs ih =>
    intro h
    by_cases hg : g.fname = name
    · simp only [List.map_cons, if_pos hg]
      rw [List.find?_cons_of_pos]
      simp
    · simp only [List.map_cons, if_neg hg]
      rw [List.find?_cons_of_neg]
      · apply ih
        simp only [List.any_cons, decide_eq_true_eq, Bool.or_eq_true] at h
        rcases h with h | h
        · exact absurd h hg
        · exact h
      · simp [hg]

/-- Auxiliary: looking the written name up in the append branch. -/
theorem find_append_new (name c : String) (m : Nat) :
    ∀ l : List FileEntry, l.any (fun g => decide (g.fname = name)) = false →
      ((l ++ [(⟨name, c, m⟩ : FileEntry)]).find? fun f => decide (f.fname = name)) =
        some ⟨name, c, m⟩ := by
  intro l
  induction l with
  | nil => simp [List.find?]
  | cons g gs ih =>
    intro h
    simp only [List.any_cons, Bool.or_eq_false_iff] at h
    rw [List.cons_append, List.find?_cons_of_neg]
    · exact ih h.2
    · simp only [h.1]
      simp

/-- A lookup of the written name after a write returns the written file
(overwrite when the name existed, creation otherwise). -/
theorem findFile_writeFile (files : List FileEntry) (name c : String) (m : Nat) :
    findFile (writeFile files name c m) name = some ⟨name, c, m⟩ := by
  unfold findFile writeFile
  by_cases hany : (files.any fun g => decide (g.fname = name)) = true
  · rw [if_pos hany]
    exact find_map_replace name c m files hany
  · rw [if_neg hany]
    exact find_append_new name c m files (by simpa using hany)

/-- A filter whose predicate rejects the written name is unaffected by the
write. -/
theorem filter_writeFile (p : FileEntry → Bool) (files : List FileEntry)
    (name c : String) (m : Nat)
    (hp : ∀ f : FileEntry, f.fname = name → p f = false) :
    (writeFile files name c m).filter p = files.filter p := by
  unfold writeFile
  by_cases hany : (files.any fun g => decide (g.fname = name)) = true
  · rw [if_pos hany]
    clear hany
    induction files with
    | nil => rfl
    | cons g gs ih =>
      by_cases hg : g.fname = name
      · simp only [List.map_cons, if_pos hg, List.filter_cons]
        rw [hp g hg, hp ⟨name, c, m⟩ rfl]
        simpa using ih
      · simp only [List.map_cons, if_neg hg, List.filter_cons]
        rw [ih]
  · rw [if_neg hany, List.filter_append]
    simp [List.filter_cons, hp ⟨name, c, m⟩ rfl]

/-- Re-writing a name whose every occurrence already holds exactly the
written file is a no-op (the idempotence core of `shutil.copy2`
overwrites). -/
theorem writeFile_eq_self (files : List FileEntry) (name c : String) (m : Nat)
    (hex : ∃ f ∈ files, f.fname = name)
    (hall : ∀ f ∈ files, f.fname = name → f = ⟨name, c, m⟩) :
    writeFile files name c m = files := by
  unfold writeFile
  obtain ⟨f0, hf0, hf0n⟩ := hex
  rw [if_pos (List.any_eq_true.mpr ⟨f0, hf0, by simp [hf0n]⟩)]
  have hcong : ∀ g ∈ files,
      (if g.fname = name then (⟨name, c, m⟩ : FileEntry) else g) = id g := by
    intro g hg
    by_cases h : g.fname = name
    · rw [if_pos h, hall g hg h]
      rfl
    · rw [if_neg h]
      rfl
  rw [List.map_congr_left hcong, List.map_id]

/-- Strings with character lists of different lengths differ. -/
theorem str_ne_of_len (a b : String) (h : a.data.length ≠ b.data.length) : a ≠ b :=
  fun heq => h (by rw [heq])

/-- A lookup of a different name is unaffected by a write. -/
theorem findFile_writeFile_other (files : List FileEntry) (name c : String) (m : Nat)
    (other : String) (hne : other ≠ name) :
    findFile (writeFile files name c m) other = findFile files other := by
  unfold findFile writeFile
  by_cases hany : (files.any fun g => decide (g.fname = name)) = true
  · rw [if_pos hany]
    clear hany
    induction files with
    | nil => rfl
    | cons g gs ih =>
      by_cases hg : g.fname = name
      · simp only [List.map_cons, if_pos hg]
        rw [List.find?_cons_of_neg, List.find?_cons_of_neg] <;>
          try exact ih
        all_goals
          simp only [decide_eq_true_eq]
          intro h
          apply hne
          first
          | exact h.symm
          | exact h.symm.trans hg
      · simp only [List.map_cons, if_neg hg, List.find?_cons]
        cases decide (g.fname = other) <;> simp [ih]
  · rw [if_neg hany, List.find?_append]
    have : ([(⟨name, c, m⟩ : FileEntry)].find? fun f => decide (f.fname = other)) = none := by
      simp only [List.find?_cons, List.find?_nil]
      have : decide ((⟨name, c, m⟩ : FileEntry).fname = other) = false := by
        simp only [decide_eq_false_iff_not]
        exact fun h => hne h.symm
      rw [this]
    rw [this, Option.or_none]

/-- The success path of the per-subject body: both sources found, mapping
defined, both copies succeed.  The file copied is the first glob match in
directory-listing order, for both the marker and the data file. -/
theorem processSubject_success (fail : String → String → Bool) (d : SubjectDir)
    (files : List FileEntry) (v e : FileEntry) (vs es : List FileEntry)
    (n : Nat) (tv te : String)
    (heeg : d.eeg = some files)
    (hv : files.filter (fun f => globVmrk f.fname) = v :: vs)
    (he : files.filter (fun f => globEeg f.fname) = e :: es)
    (hn : pyInt (subjectToken d.name) = some n)
    (htv : get_expected_filename n "vmrk" = some tv)
    (hte : get_expected_filename n "eeg" = some te)
    (hfv : fail d.name tv = false)
    (hfe : fail d.name te = false) :
    processSubject fail d =
      ({ d with eeg := some (writeFile (writeFile files tv v.content v.mtime)
          te e.content e.mtime) }, (1, 1, 0)) := by
  unfold processSubject
  split
  · rename_i heq
    rw [heeg] at heq
    exact Option.noConfusion heq
  rename_i files' heq
  rw [heeg] at heq
  cases heq
  split
  · rename_i hnil
    rw [hv] at hnil
    exact List.noConfusion hnil
  rename_i v' vs' hv'
  rw [hv] at hv'
  cases hv'
  split
  · rename_i hnil
    rw [he] at hnil
    exact List.noConfusion hnil
  rename_i e' es' he'
  rw [he] at he'
  cases he'
  split
  · rename_i heq
    rw [hn] at heq
    exact Option.noConfusion heq
  rename_i n' heq
  rw [hn] at heq
  cases heq
  split
  · rename_i heq
    rw [htv] at heq
    exact Option.noConfusion heq
  rename_i tv' heq
  rw [htv] at heq
  cases heq
  rw [hfv]
  simp only [Bool.false_eq_true, if_false]
  split
  · rename_i heq
    rw [hte] at heq
    exact Option.noConfusion heq
  rename_i te' heq
  rw [hte] at heq
  cases heq
  rw [hfe]
  simp only [Bool.false_eq_true, if_false]

/-- C3: for a subject the walker processes (both sources present, mapping
defined, copies succeed), the copy step writes both targets into the same
`eeg` subdirectory with exactly the source's content and mtime metadata,
overwrites an existing file of the target name, leaves the sources present
untouched, and neither deletes nor alters any other file. -/
theorem c3_copy_creates_preserves (fail : String → String → Bool) (d : SubjectDir)
    (files : List FileEntry) (v e : FileEntry) (vs es : List FileEntry)
    (n : Nat) (tv te : String)
    (heeg : d.eeg = some files)
    (hv : files.filter (fun f => globVmrk f.fname) = v :: vs)
    (he : files.filter (fun f => globEeg f.fname) = e :: es)
    (hn : pyInt (subjectToken d.name) = some n)
    (htv : get_expected_filename n "vmrk" = some tv)
    (hte : get_expected_filename n "eeg" = some te)
    (hfv : fail d.name tv = false)
    (hfe : fail d.name te = false) :
    ∃ files',
      (processSubject fail d).1 = { d with eeg := some files' } ∧
      findFile files' tv = some ⟨tv, v.content, v.mtime⟩ ∧
      findFile files' te = some ⟨te, e.content, e.mtime⟩ ∧
      v ∈ files' ∧ e ∈ files' ∧
      (∀ f ∈ files, f.fname ≠ tv → f.fname ≠ te → f ∈ files') ∧
      (∀ f ∈ files', f ∈ files ∨ f = ⟨tv, v.content, v.mtime⟩ ∨
        f = ⟨te, e.content, e.mtime⟩) := by
  obtain ⟨hlv, hle, hnet⟩ := mapper_pair n tv te htv hte
  refine ⟨writeFile (writeFile files tv v.content v.mtime) te e.content e.mtime,
    ?_, ?_, ?_, ?_, ?_, ?_, ?_⟩
  · rw [processSubject_success fail d files v e vs es n tv te heeg hv he hn htv hte
      hfv hfe]
  · rw [findFile_writeFile_other _ te e.content e.mtime tv hnet]
    exact findFile_writeFile files tv v.content v.mtime
  · exact findFile_writeFile _ te e.content e.mtime
  · have hvmem : v ∈ files ∧ globVmrk v.fname = true :=
      List.mem_filter.mp (hv.symm ▸ List.mem_cons_self v vs)
    have h28 := glob_vmrk_length _ hvmem.2
    exact mem_writeFile_of_mem _ te e.content e.mtime v
      (mem_writeFile_of_mem _ tv v.content v.mtime v hvmem.1
        (str_ne_of_len _ _ (by omega)))
      (str_ne_of_len _ _ (by omega))
  · have hemem : e ∈ files ∧ globEeg e.fname = true :=
      List.mem_filter.mp (he.symm ▸ List.mem_cons_self e es)
    have h27 := glob_eeg_length _ hemem.2
    exact mem_writeFile_of_mem _ te e.content e.mtime e
      (mem_writeFile_of_mem _ tv v.content v.mtime e hemem.1
        (str_ne_of_len _ _ (by omega)))
      (str_ne_of_len _ _ (by omega))
  · intro f hf hftv hfte
    exact mem_writeFile_of_mem _ te e.content e.mtime f
      (mem_writeFile_of_mem _ tv v.content v.mtime f hf hftv) hfte
  · intro f hf
    by_cases h1 : f.fname = te
    · exact Or.inr (Or.inr (mem_writeFile_named _ te e.content e.mtime f hf h1))
    · have hf1 := mem_writeFile_other _ te e.content e.mtime f hf h1
      by_cases h2 : f.fname = tv
      · exact Or.inr (Or.inl (mem_writeFile_named _ tv v.content v.mtime f hf1 h2))
      · exact Or.inl (mem_writeFile_other _ tv v.content v.mtime f hf1 h2)

/-- Source marker file of the C3 witness subject. -/
def c3v : FileEntry := ⟨"sub-002_task-visualoddball_eeg.vmrk", "MV", 1⟩

/-- Source data file of the C3 witness subject. -/
def c3e : FileEntry := ⟨"sub-002_task-visualoddball_eeg.eeg", "ME", 2⟩

/-- A stale target file already occupying the vmrk target name, to
exercise the overwrite branch. -/
def c3old : FileEntry := ⟨"COCOA_014_VO.vmrk", "OLD", 9⟩

/-- Listing of the C3 witness subject's eeg directory. -/
def c3files : List FileEntry := [c3v, c3e, c3old]

/-- The C3 witness subject directory. -/
def c3d : SubjectDir := ⟨"sub-002", some c3files, []⟩

/-- Witness for C3 at a concrete subject whose vmrk target name is already
taken by a stale file. -/
theorem c3_copy_creates_preserves_w :
    ∃ files',
      (processSubject (fun _ _ => false) c3d).1 = { c3d with eeg := some files' } ∧
      findFile files' "COCOA_014_VO.vmrk" = some ⟨"COCOA_014_VO.vmrk", c3v.content, c3v.mtime⟩ ∧
      findFile files' "COCOA_014_VO.eeg" = some ⟨"COCOA_014_VO.eeg", c3e.content, c3e.mtime⟩ ∧
      c3v ∈ files' ∧ c3e ∈ files' ∧
      (∀ f ∈ c3files, f.fname ≠ "COCOA_014_VO.vmrk" → f.fname ≠ "COCOA_014_VO.eeg" →
        f ∈ files') ∧
      (∀ f ∈ files', f ∈ c3files ∨ f = ⟨"COCOA_014_VO.vmrk", c3v.content, c3v.mtime⟩ ∨
        f = ⟨"COCOA_014_VO.eeg", c3e.content, c3e.mtime⟩) :=
  c3_copy_creates_preserves (fun _ _ => false) c3d c3files c3v c3e [] [] 2
    "COCOA_014_VO.vmrk" "COCOA_014_VO.eeg" rfl (by decide) (by decide) (by decide)
    (by decide) (by decide) rfl rfl

/-- First marker candidate for the C8 counterexample. -/
def c8a : FileEntry := ⟨"a_task-visualoddball_eeg.vmrk", "AAA", 1⟩

/-- Second marker candidate for the C8 counterexample. -/
def c8b : FileEntry := ⟨"b_task-visualoddball_eeg.vmrk", "BBB", 2⟩

/-- The single data file of the C8 counterexample. -/
def c8e : FileEntry := ⟨"x_task-visualoddball_eeg.eeg", "EEE", 3⟩

/-- The C8 subject with one directory-listing order of the same files. -/
def c8d1 : SubjectDir := ⟨"sub-001", some [c8a, c8b, c8e], []⟩

/-- The C8 subject with the opposite directory-listing order. -/
def c8d2 : SubjectDir := ⟨"sub-001", some [c8b, c8a, c8e], []⟩

/-- Counterexample to C8: the two listings hold the same set of files (they
are permutations of each other), two marker files match the vmrk glob, yet
the walker copies `AAA` under one listing order and `BBB` under the other —
`vmrk_files[0]` of an unordered `glob` is not a listing-order-independent
tie-break. -/
theorem c8_cex_order_dependent_selection :
    (c8d1.eeg.getD []).Perm (c8d2.eeg.getD []) ∧
    (findFile ((processSubject (fun _ _ => false) c8d1).1.eeg.getD [])
        "COCOA_013_VO.vmrk").map (fun f => f.content) = some "AAA" ∧
    (findFile ((processSubject (fun _ _ => false) c8d2).1.eeg.getD [])
        "COCOA_013_VO.vmrk").map (fun f => f.content) = some "BBB" := by
  refine ⟨List.Perm.swap c8b c8a [c8e], by decide, by decide⟩

/-- C8 amended: the walker never crashes on multiple glob matches and
selects the first match in directory-listing order, for the marker and the
data file alike; the selection is deterministic for a fixed listing order
(but not across listing orders). -/
theorem c8_amended_first_listed_match (fail : String → String → Bool)
    (d : SubjectDir) (files : List FileEntry) (v e : FileEntry)
    (vs es : List FileEntry) (n : Nat) (tv te : String)
    (heeg : d.eeg = some files)
    (hv : files.filter (fun f => globVmrk f.fname) = v :: vs)
    (he : files.filter (fun f => globEeg f.fname) = e :: es)
    (hn : pyInt (subjectToken d.name) = some n)
    (htv : get_expected_filename n "vmrk" = some tv)
    (hte : get_expected_filename n "eeg" = some te)
    (hfv : fail d.name tv = false)
    (hfe : fail d.name te = false) :
    processSubject fail d =
      ({ d with eeg := some (writeFile (writeFile files tv v.content v.mtime)
          te e.content e.mtime) }, (1, 1, 0)) :=
  processSubject_success fail d files v e vs es n tv te heeg hv he hn htv hte hfv hfe

/-- Witness for the amended C8: with two marker candidates listed as
`[c8a, c8b]`, the walker selects `c8a`, the first in listing order. -/
theorem c8_amended_first_listed_match_w :
    processSubject (fun _ _ => false) c8d1 =
      ({ c8d1 with eeg := some (writeFile (writeFile [c8a, c8b, c8e]
          "COCOA_013_VO.vmrk" c8a.content c8a.mtime)
          "COCOA_013_VO.eeg" c8e.content c8e.mtime) }, (1, 1, 0)) :=
  c8_amended_first_listed_match (fun _ _ => false) c8d1 [c8a, c8b, c8e] c8a c8e
    [c8b] [] 1 "COCOA_013_VO.vmrk" "COCOA_013_VO.eeg" rfl (by decide) (by decide)
    (by decide) (by decide) (by decide) rfl rfl

/-- Branch lemma: missing `eeg` subdirectory is a pure skip. -/
theorem ps_eeg_none (fail : String → String → Bool) (d : SubjectDir)
    (heeg : d.eeg = none) : processSubject fail d = (d, (0, 0, 0)) := by
  unfold processSubject
  split
  · rfl
  · rename_i files' heq
    exact absurd (heeg.symm.trans heq) (by simp)

/-- Branch lemma: no vmrk glob match is a pure skip. -/
theorem ps_no_vmrk (fail : String → String → Bool) (d : SubjectDir)
    (files : List FileEntry) (heeg : d.eeg = some files)
    (hv : files.filter (fun f => globVmrk f.fname) = []) :
    processSubject fail d = (d, (0, 0, 0)) := by
  unfold processSubject
  split
  · rfl
  rename_i files' heq
  cases heeg.symm.trans heq
  split
  · rfl
  · rename_i v' vs' hv'
    exact absurd (hv.symm.trans hv') (by simp)

/-- Branch lemma: no eeg glob match is a pure skip. -/
theorem ps_no_eegf (fail : String → String → Bool) (d : SubjectDir)
    (files : List FileEntry) (v : FileEntry) (vs : List FileEntry)
    (heeg : d.eeg = some files)
    (hv : files.filter (fun f => globVmrk f.fname) = v :: vs)
    (he : files.filter (fun f => globEeg f.fname) = []) :
    processSubject fail d = (d, (0, 0, 0)) := by
  unfold processSubject
  split
  · rfl
  rename_i files' heq
  cases heeg.symm.trans heq
  split
  · rfl
  rename_i v' vs' hv'
  cases hv.symm.trans hv'
  split
  · rfl
  · rename_i e' es' he'
    exact absurd (he.symm.trans he') (by simp)

/-- Branch lemma: a `ValueError` inside the `try` block is caught and
counted as an error, leaving the directory unchanged. -/
theorem ps_parse_none (fail : String → String → Bool) (d : SubjectDir)
    (files : List FileEntry) (v e : FileEntry) (vs es : List FileEntry)
    (heeg : d.eeg = some files)
    (hv : files.filter (fun f => globVmrk f.fname) = v :: vs)
    (he : files.filter (fun f => globEeg f.fname) = e :: es)
    (hn : pyInt (subjectToken d.name) = none) :
    processSubject fail d = (d, (0, 0, 1)) := by
  unfold processSubject
  split
  · rename_i heq
    exact absurd (heeg.symm.trans heq) (by simp)
  rename_i files' heq
  cases heeg.symm.trans heq
  split
  · rename_i hnil
    exact absurd (hv.symm.trans hnil) (by simp)
  rename_i v' vs' hv'
  cases hv.symm.trans hv'
  split
  · rename_i hnil
    exact absurd (he.symm.trans hnil) (by simp)
  rename_i e' es' he'
  cases he.symm.trans he'
  split
  · rfl
  · rename_i n' heq
    exact absurd (hn.symm.trans heq) (by simp)

/-- Branch lemma: an out-of-range subject number is a skip with a
warning. -/
theorem ps_map_none (fail : String → String → Bool) (d : SubjectDir)
    (files : List FileEntry) (v e : FileEntry) (vs es : List FileEntry) (n : Nat)
    (heeg : d.eeg = some files)
    (hv : files.filter (fun f => globVmrk f.fname) = v :: vs)
    (he : files.filter (fun f => globEeg f.fname) = e :: es)
    (hn : pyInt (subjectToken d.name) = some n)
    (htv : get_expected_filename n "vmrk" = none) :
    processSubject fail d = (d, (0, 0, 0)) := by
  unfold processSubject
  split
  · rfl
  rename_i files' heq
  cases heeg.symm.trans heq
  split
  · rfl
  rename_i v' vs' hv'
  cases hv.symm.trans hv'
  split
  · rfl
  rename_i e' es' he'
  cases he.symm.trans he'
  split
  · rename_i heq
    exact absurd (hn.symm.trans heq) (by simp)
  rename_i n' heq
  cases hn.symm.trans heq
  split
  · rfl
  · rename_i tv' heq
    exact absurd (htv.symm.trans heq) (by simp)

/-- Branch lemma: the vmrk copy raising an I/O error is caught and counted,
leaving the directory unchanged. -/
theorem ps_fail_vmrk (fail : String → String → Bool) (d : SubjectDir)
    (files : List FileEntry) (v e : FileEntry) (vs es : List FileEntry)
    (n : Nat) (tv : String)
    (heeg : d.eeg = some files)
    (hv : files.filter (fun f => globVmrk f.fname) = v :: vs)
    (he : files.filter (fun f => globEeg f.fname) = e :: es)
    (hn : pyInt (subjectToken d.name) = some n)
    (htv : get_expected_filename n "vmrk" = some tv)
    (hfv : fail d.name tv = true) :
    processSubject fail d = (d, (0, 0, 1)) := by
  unfold processSubject
  split
  · rename_i heq
    exact absurd (heeg.symm.trans heq) (by simp)
  rename_i files' heq
  cases heeg.symm.trans heq
  split
  · rename_i hnil
    exact absurd (hv.symm.trans hnil) (by simp)
  rename_i v' vs' hv'
  cases hv.symm.trans hv'
  split
  · rename_i hnil
    exact absurd (he.symm.trans hnil) (by simp)
  rename_i e' es' he'
  cases he.symm.trans he'
  split
  · rename_i heq
    exact absurd (hn.symm.trans heq) (by simp)
  rename_i n' heq
  cases hn.symm.trans heq
  split
  · rename_i heq
    exact absurd (htv.symm.trans heq) (by simp)
  rename_i tv' heq
  cases htv.symm.trans heq
  rw [hfv]
  simp

/-- Branch lemma: the vmrk copy succeeds but the eeg copy raises: the vmrk
target is on disk, `fixed_vmrk_count` and `error_count` both move. -/
theorem ps_fail_eeg (fail : String → String → Bool) (d : SubjectDir)
    (files : List FileEntry) (v e : FileEntry) (vs es : List FileEntry)
    (n : Nat) (tv te : String)
    (heeg : d.eeg = some files)
    (hv : files.filter (fun f => globVmrk f.fname) = v :: vs)
    (he : files.filter (fun f => globEeg f.fname) = e :: es)
    (hn : pyInt (subjectToken d.name) = some n)
    (htv : get_expected_filename n "vmrk" = some tv)
    (hte : get_expected_filename n "eeg" = some te)
    (hfv : fail d.name tv = false)
    (hfe : fail d.name te = true) :
    processSubject fail d =
      ({ d with eeg := some (writeFile files tv v.content v.mtime) }, (1, 0, 1)) := by
  unfold processSubject
  split
  · rename_i heq
    exact absurd (heeg.symm.trans heq) (by simp)
  rename_i files' heq
  cases heeg.symm.trans heq
  split
  · rename_i hnil
    exact absurd (hv.symm.trans hnil) (by simp)
  rename_i v' vs' hv'
  cases hv.symm.trans hv'
  split
  · rename_i hnil
    exact absurd (he.symm.trans hnil) (by simp)
  rename_i e' es' he'
  cases he.symm.trans he'
  split
  · rename_i heq
    exact absurd (hn.symm.trans heq) (by simp)
  rename_i n' heq
  cases hn.symm.trans heq
  split
  · rename_i heq
    exact absurd (htv.symm.trans heq) (by simp)
  rename_i tv' heq
  cases htv.symm.trans heq
  rw [hfv]
  simp only [Bool.false_eq_true, if_false]
  split
  · rename_i heq
    exact absurd (hte.symm.trans heq) (by simp)
  rename_i te' heq
  cases hte.symm.trans heq
  rw [hfe]
  simp

/-- If the vmrk target name is defined so is the eeg target name (the
branch taken depends only on the subject number). -/
theorem mapper_some_pair (n : Nat) (tv : String)
    (htv : get_expected_filename n "vmrk" = some tv) :
    ∃ te, get_expected_filename n "eeg" = some te := by
  unfold get_expected_filename at htv ⊢
  split_ifs at htv ⊢ <;> exact ⟨_, rfl⟩

/-- Processing a subject directory twice with the same I/O-failure
behaviour gives the same directory and the same counter deltas as
processing it once: every path either leaves the directory unchanged or
re-copies identical content over its own previous output. -/
theorem processSubject_idem (fail : String → String → Bool) (d : SubjectDir) :
    processSubject fail (processSubject fail d).1 = processSubject fail d := by
  have key : ∀ c : Counts, processSubject fail d = (d, c) →
      processSubject fail (processSubject fail d).1 = processSubject fail d := by
    intro c h
    rw [h]
    exact h
  cases heeg : d.eeg with
  | none => exact key _ (ps_eeg_none fail d heeg)
  | some files =>
    cases hv : files.filter (fun f => globVmrk f.fname) with
    | nil => exact key _ (ps_no_vmrk fail d files heeg hv)
    | cons v vs =>
      cases he : files.filter (fun f => globEeg f.fname) with
      | nil => exact key _ (ps_no_eegf fail d files v vs heeg hv he)
      | cons e es =>
        cases hn : pyInt (subjectToken d.name) with
        | none => exact key _ (ps_parse_none fail d files v e vs es heeg hv he hn)
        | some n =>
          cases htv : get_expected_filename n "vmrk" with
          | none => exact key _ (ps_map_none fail d files v e vs es n heeg hv he hn htv)
          | some tv =>
            obtain ⟨te, hte⟩ := mapper_some_pair n tv htv
            obtain ⟨hlv, hle, hnet⟩ := mapper_pair n tv te htv hte
            have gtv := target_not_glob tv (by omega)
            have gte := target_not_glob te (by omega)
            have hptv : ∀ f : FileEntry, f.fname = tv → globVmrk f.fname = false :=
              fun f hf => by rw [hf]; exact gtv.1
            have hpte : ∀ f : FileEntry, f.fname = te → globVmrk f.fname = false :=
              fun f hf => by rw [hf]; exact gte.1
            have hqtv : ∀ f : FileEntry, f.fname = tv → globEeg f.fname = false :=
              fun f hf => by rw [hf]; exact gtv.2
            have hqte : ∀ f : FileEntry, f.fname = te → globEeg f.fname = false :=
              fun f hf => by rw [hf]; exact gte.2
            cases hfv : fail d.name tv with
            | true => exact key _ (ps_fail_vmrk fail d files v e vs es n tv heeg hv he hn htv hfv)
            | false =>
              cases hfe : fail d.name te with
              | true =>
                have h1 := ps_fail_eeg fail d files v e vs es n tv te heeg hv he hn
                  htv hte hfv hfe
                rw [h1]
                have hv1 : (writeFile files tv v.content v.mtime).filter
                    (fun f => globVmrk f.fname) = v :: vs :=
                  (filter_writeFile _ files tv v.content v.mtime hptv).trans hv
                have he1 : (writeFile files tv v.content v.mtime).filter
                    (fun f => globEeg f.fname) = e :: es :=
                  (filter_writeFile _ files tv v.content v.mtime hqtv).trans he
                have h2 := ps_fail_eeg fail
                  { d with eeg := some (writeFile files tv v.content v.mtime) }
                  (writeFile files tv v.content v.mtime) v e vs es n tv te rfl
                  hv1 he1 hn htv hte hfv hfe
                refine h2.trans ?_
                have hwf : writeFile (writeFile files tv v.content v.mtime) tv
                    v.content v.mtime = writeFile files tv v.content v.mtime :=
                  writeFile_eq_self _ tv v.content v.mtime
                    ⟨⟨tv, v.content, v.mtime⟩, self_mem_writeFile files tv _ _, rfl⟩
                    (fun f hf hfn => mem_writeFile_named files tv _ _ f hf hfn)
                rw [hwf]
              | false =>
                have h1 := processSubject_success fail d files v e vs es n tv te heeg
                  hv he hn htv hte hfv hfe
                rw [h1]
                have hv2 : (writeFile (writeFile files tv v.content v.mtime) te
                    e.content e.mtime).filter (fun f => globVmrk f.fname) = v :: vs :=
                  (filter_writeFile _ _ te e.content e.mtime hpte).trans
                    ((filter_writeFile _ files tv v.content v.mtime hptv).trans hv)
                have he2 : (writeFile (writeFile files tv v.content v.mtime) te
                    e.content e.mtime).filter (fun f => globEeg f.fname) = e :: es :=
                  (filter_writeFile _ _ te e.content e.mtime hqte).trans
                    ((filter_writeFile _ files tv v.content v.mtime hqtv).trans he)
                have h2 := processSubject_success fail
                  { d with eeg := some (writeFile (writeFile files tv v.content
                    v.mtime) te e.content e.mtime) }
                  (writeFile (writeFile files tv v.content v.mtime) te e.content
                    e.mtime) v e vs es n tv te rfl hv2 he2 hn htv hte hfv hfe
                refine h2.trans ?_
                have hwv : writeFile (writeFile (writeFile files tv v.content
                    v.mtime) te e.content e.mtime) tv v.content v.mtime =
                    writeFile (writeFile files tv v.content v.mtime) te e.content
                      e.mtime :=
                  writeFile_eq_self _ tv v.content v.mtime
                    ⟨⟨tv, v.content, v.mtime⟩,
                      mem_writeFile_of_mem _ te e.content e.mtime _
                        (self_mem_writeFile files tv _ _) hnet, rfl⟩
                    (fun f hf hfn =>
                      mem_writeFile_named files tv _ _ f
                        (mem_writeFile_other _ te e.content e.mtime f hf
                          (by rw [hfn]; exact hnet)) hfn)
                have hwe : writeFile (writeFile (writeFile files tv v.content
                    v.mtime) te e.content e.mtime) te e.content e.mtime =
                    writeFile (writeFile files tv v.content v.mtime) te e.content
                      e.mtime :=
                  writeFile_eq_self _ te e.content e.mtime
                    ⟨⟨te, e.content, e.mtime⟩, self_mem_writeFile _ te _ _, rfl⟩
                    (fun f hf hfn => mem_writeFile_named _ te _ _ f hf hfn)
                rw [hwv, hwe]

/-- Processing never renames a subject directory: only files inside its
`eeg` subdirectory change. -/
theorem processSubject_name (fail : String → String → Bool) (d : SubjectDir) :
    (processSubject fail d).1.name = d.name := by
  unfold processSubject
  split
  · rfl
  split
  · rfl
  split
  · rfl
  split
  · rfl
  split
  · rfl
  split
  · rfl
  split
  · rfl
  split
  · rfl
  · rfl

/-- The main loop decomposes: the final filesystem replaces each directory
by the result of processing the identically named element of the work list
(independently of every other directory), and the counters are the sum of
the per-subject deltas.  Directory names are unique on a filesystem, which
is the `Nodup` hypothesis. -/
theorem processDirs_spec (fail : String → String → Bool) :
    ∀ (L : List SubjectDir) (st : Root),
      (L.map (fun d => d.name)).Nodup →
      processDirs fail L st =
        (⟨st.subjects.map (fun e =>
            ((L.find? (fun x => decide (x.name = e.name))).map
              (fun x => (processSubject fail x).1)).getD e),
          st.rootFiles⟩,
         (L.map (fun d => (processSubject fail d).2)).sum) := by
  intro L
  induction L with
  | nil =>
    intro st _
    simp only [processDirs, List.find?_nil, Option.map_none', Option.getD_none,
      List.map_nil, List.sum_nil]
    rw [List.map_id']
    rfl
  | cons d ds ih =>
    intro st hnd
    have hnd' : (ds.map (fun d => d.name)).Nodup := by
      simp only [List.map_cons, List.nodup_cons] at hnd
      exact hnd.2
    have hdns : d.name ∉ ds.map (fun d => d.name) := by
      simp only [List.map_cons, List.nodup_cons] at hnd
      exact hnd.1
    simp only [processDirs]
    rw [ih (rootUpdate st d.name (processSubject fail d).1) hnd']
    unfold rootUpdate
    simp only [List.map_map, List.map_cons, List.sum_cons]
    congr 1
    congr 1
    apply List.map_congr_left
    intro e _
    simp only [Function.comp]
    by_cases he : e.name = d.name
    · have hif : (if e.name = d.name then (processSubject fail d).1 else e) =
          (processSubject fail d).1 := if_pos he
      simp only [hif]
      have hfind : ds.find? (fun x =>
          decide (x.name = (processSubject fail d).1.name)) = none := by
        rw [List.find?_eq_none]
        intro x hx
        simp only [decide_eq_true_eq, processSubject_name]
        intro hxn
        exact hdns (hxn ▸ List.mem_map_of_mem (fun d => d.name) hx)
      rw [hfind]
      have hhead : ((d :: ds).find? fun x => decide (x.name = e.name)) = some d :=
        List.find?_cons_of_pos _ (by simp [he])
      rw [hhead]
      rfl
    · have hif : (if e.name = d.name then (processSubject fail d).1 else e) = e :=
        if_neg he
      simp only [hif]
      have hhead : ((d :: ds).find? fun x => decide (x.name = e.name)) =
          ds.find? fun x => decide (x.name = e.name) :=
        List.find?_cons_of_neg _
          (by simp only [decide_eq_true_eq]; exact fun h => he h.symm)
      rw [hhead]

/-- Full-run decomposition of `recreate_correct_files`: when every admitted
name parses (the guard) and directory names are unique (a filesystem
invariant), the run returns: each `sub-` directory replaced by its own,
independent processing result, every other entry untouched, and the summary
counters equal to the sum of the per-subject deltas. -/
theorem recreate_spec (fail : String → String → Bool) (root : Root)
    (hnd : (root.subjects.map (fun d => d.name)).Nodup)
    (hall : (root.subjects.filter (fun d => strStarts "sub-" d.name)).all
      (fun d => (pyInt (subjectToken d.name)).isSome) = true) :
    recreate_correct_files fail root =
      some (⟨root.subjects.map (fun e =>
          if strStarts "sub-" e.name then (processSubject fail e).1 else e),
        root.rootFiles⟩,
        ((root.subjects.filter (fun d => strStarts "sub-" d.name)).map
          (fun d => (processSubject fail d).2)).sum) := by
  unfold recreate_correct_files
  rw [if_pos hall]
  have hsubl : ((root.subjects.filter (fun d => strStarts "sub-" d.name)).map
      (fun d => d.name)).Sublist (root.subjects.map (fun d => d.name)) :=
    (List.filter_sublist _).map _
  have hndF : ((root.subjects.filter (fun d => strStarts "sub-" d.name)).map
      (fun d => d.name)).Nodup := hnd.sublist hsubl
  have hperm : ((root.subjects.filter (fun d => strStarts "sub-" d.name)).insertionSort
        (fun a b => subKey a ≤ subKey b)).Perm
      (root.subjects.filter (fun d => strStarts "sub-" d.name)) :=
    List.perm_insertionSort _ _
  have hndL : (((root.subjects.filter (fun d => strStarts "sub-" d.name)).insertionSort
      (fun a b => subKey a ≤ subKey b)).map (fun d => d.name)).Nodup :=
    ((hperm.map _).nodup_iff).mpr hndF
  rw [processDirs_spec fail _ root hndL]
  have hsum : (((root.subjects.filter (fun d => strStarts "sub-" d.name)).insertionSort
        (fun a b => subKey a ≤ subKey b)).map (fun d => (processSubject fail d).2)).sum =
      ((root.subjects.filter (fun d => strStarts "sub-" d.name)).map
        (fun d => (processSubject fail d).2)).sum :=
    (hperm.map _).sum_eq
  rw [hsum]
  congr 2
  congr 1
  apply List.map_congr_left
  intro e he
  by_cases hs : strStarts "sub-" e.name = true
  · have hmemF : e ∈ root.subjects.filter (fun d => strStarts "sub-" d.name) :=
      List.mem_filter.mpr ⟨he, hs⟩
    have hmemL : e ∈ (root.subjects.filter (fun d => strStarts "sub-" d.name)).insertionSort
        (fun a b => subKey a ≤ subKey b) := hperm.mem_iff.mpr hmemF
    cases hfind : ((root.subjects.filter (fun d => strStarts "sub-" d.name)).insertionSort
        (fun a b => subKey a ≤ subKey b)).find? (fun x => decide (x.name = e.name)) with
    | none =>
      rw [List.find?_eq_none] at hfind
      exact absurd (by simp : decide (e.name = e.name) = true) (hfind e hmemL)
    | some x =>
      have hxname : x.name = e.name := by
        have hp := List.find?_some hfind
        simpa using hp
      have hxmem : x ∈ root.subjects :=
        List.mem_of_mem_filter (hperm.mem_iff.mp (List.mem_of_find?_eq_some hfind))
      have hxe : x = e := List.inj_on_of_nodup_map hnd hxmem he hxname
      rw [hxe, if_pos hs]
      rfl
  · have hfind : ((root.subjects.filter (fun d => strStarts "sub-" d.name)).insertionSort
        (fun a b => subKey a ≤ subKey b)).find? (fun x => decide (x.name = e.name)) =
        none := by
      rw [List.find?_eq_none]
      intro x hx
      simp only [decide_eq_true_eq]
      intro hxn
      have hxF : x ∈ root.subjects.filter (fun d => strStarts "sub-" d.name) :=
        hperm.mem_iff.mp hx
      have := (List.mem_filter.mp hxF).2
      rw [hxn] at this
      exact hs this
    rw [hfind, if_neg hs]
    rfl

/-- C4: per-subject failures never abort the batch.  For any I/O-failure
behaviour, the run's final filesystem replaces every admitted subject
directory by the result of processing it alone — an error or skip in one
subject cannot change any other entry — and the summary counters are the
sum of the independent per-subject deltas, so every subject is reflected in
the summary whatever happened to the others. -/
theorem c4_batch_isolation (fail : String → String → Bool) (root : Root)
    (hnd : (root.subjects.map (fun d => d.name)).Nodup)
    (hall : (root.subjects.filter (fun d => strStarts "sub-" d.name)).all
      (fun d => (pyInt (subjectToken d.name)).isSome) = true) :
    recreate_correct_files fail root =
      some (⟨root.subjects.map (fun e =>
          if strStarts "sub-" e.name then (processSubject fail e).1 else e),
        root.rootFiles⟩,
        ((root.subjects.filter (fun d => strStarts "sub-" d.name)).map
          (fun d => (processSubject fail d).2)).sum) :=
  recreate_spec fail root hnd hall

/-- The C4 witness root: two well-formed subjects and a non-subject
directory. -/
def c4root : Root :=
  ⟨[⟨"sub-001", some [⟨"sub-001_task-visualoddball_eeg.vmrk", "V1", 1⟩,
      ⟨"sub-001_task-visualoddball_eeg.eeg", "E1", 2⟩], []⟩,
    ⟨"sub-003", some [⟨"sub-003_task-visualoddball_eeg.vmrk", "V3", 3⟩,
      ⟨"sub-003_task-visualoddball_eeg.eeg", "E3", 4⟩], []⟩,
    ⟨"docs", none, []⟩], []⟩

/-- Witness for C4: every copy for `sub-003` fails, yet `sub-001` is fully
processed and the summary shows one vmrk, one eeg, one error. -/
theorem c4_batch_isolation_w :
    (c4root.subjects.map (fun d => d.name)).Nodup ∧
    ((c4root.subjects.filter (fun d => strStarts "sub-" d.name)).all
      (fun d => (pyInt (subjectToken d.name)).isSome) = true) ∧
    recreate_correct_files (fun nm _ => decide (nm = "sub-003")) c4root =
      some (⟨c4root.subjects.map (fun e =>
          if strStarts "sub-" e.name then
            (processSubject (fun nm _ => decide (nm = "sub-003")) e).1
          else e),
        c4root.rootFiles⟩,
        ((c4root.subjects.filter (fun d => strStarts "sub-" d.name)).map
          (fun d => (processSubject (fun nm _ => decide (nm = "sub-003")) d).2)).sum) ∧
    (recreate_correct_files (fun nm _ => decide (nm = "sub-003")) c4root).map
      (fun p => p.2) = some (1, 1, 1) :=
  ⟨by decide, by decide,
    c4_batch_isolation (fun nm _ => decide (nm = "sub-003")) c4root (by decide)
      (by decide), by decide⟩

/-- C5: running the walker twice in succession yields exactly the target
files and contents of a single run and the identical summary — in
particular the error count of the second run (equal to the first) is no
larger.  The rerun re-selects the same sources (targets are too short to
match the source globs), re-derives the same names, and overwrites each
target with its own content. -/
theorem c5_idempotent_rerun (fail : String → String → Bool) (root r1 : Root)
    (c1 : Counts)
    (hnd : (root.subjects.map (fun d => d.name)).Nodup)
    (h : recreate_correct_files fail root = some (r1, c1)) :
    recreate_correct_files fail r1 = some (r1, c1) := by
  by_cases hall : (root.subjects.filter (fun d => strStarts "sub-" d.name)).all
      (fun d => (pyInt (subjectToken d.name)).isSome) = true
  · rw [recreate_spec fail root hnd hall] at h
    have hinj := Option.some.inj h
    have hr1 : r1 = ⟨root.subjects.map (fun e =>
        if strStarts "sub-" e.name then (processSubject fail e).1 else e),
      root.rootFiles⟩ := (congrArg Prod.fst hinj).symm
    have hc1 : c1 = ((root.subjects.filter (fun d => strStarts "sub-" d.name)).map
        (fun d => (processSubject fail d).2)).sum := (congrArg Prod.snd hinj).symm
    subst hr1
    subst hc1
    have hstepname : ∀ e : SubjectDir,
        (if strStarts "sub-" e.name then (processSubject fail e).1 else e).name
          = e.name := by
      intro e
      by_cases hs : strStarts "sub-" e.name = true
      · rw [if_pos hs, processSubject_name]
      · rw [if_neg hs]
    have hnd1 : ((root.subjects.map (fun e => if strStarts "sub-" e.name then
        (processSubject fail e).1 else e)).map (fun d => d.name)).Nodup := by
      rw [List.map_map]
      have : (fun d => SubjectDir.name d) ∘ (fun e => if strStarts "sub-" e.name then
          (processSubject fail e).1 else e) = fun d => d.name := by
        funext e
        simp only [Function.comp]
        exact hstepname e
      rw [this]
      exact hnd
    have hfilter : (root.subjects.map (fun e => if strStarts "sub-" e.name then
        (processSubject fail e).1 else e)).filter (fun d => strStarts "sub-" d.name) =
        (root.subjects.filter (fun d => strStarts "sub-" d.name)).map
          (fun e => if strStarts "sub-" e.name then (processSubject fail e).1 else e) := by
      rw [List.filter_map]
      congr 1
      apply List.filter_congr
      intro e _
      simp only [Function.comp]
      rw [hstepname e]
    have hall1 : ((root.subjects.map (fun e => if strStarts "sub-" e.name then
        (processSubject fail e).1 else e)).filter
          (fun d => strStarts "sub-" d.name)).all
        (fun d => (pyInt (subjectToken d.name)).isSome) = true := by
      rw [hfilter]
      rw [List.all_eq_true] at hall ⊢
      intro x hx
      obtain ⟨y, hy, hxy⟩ := List.mem_map.mp hx
      rw [← hxy]
      show (pyInt (subjectToken (if strStarts "sub-" y.name then
        (processSubject fail y).1 else y).name)).isSome = true
      rw [hstepname y]
      exact hall y hy
    rw [recreate_spec fail _ hnd1 hall1]
    have hmap2 : (root.subjects.map (fun e => if strStarts "sub-" e.name then
        (processSubject fail e).1 else e)).map (fun e => if strStarts "sub-" e.name then
          (processSubject fail e).1 else e) =
        root.subjects.map (fun e => if strStarts "sub-" e.name then
          (processSubject fail e).1 else e) := by
      rw [List.map_map]
      apply List.map_congr_left
      intro e _
      simp only [Function.comp]
      by_cases hs : strStarts "sub-" e.name = true
      · have h1 : (if strStarts "sub-" e.name then (processSubject fail e).1 else e) =
            (processSubject fail e).1 := if_pos hs
        rw [h1]
        have hs2 : strStarts "sub-" (processSubject fail e).1.name = true := by
          rw [processSubject_name]
          exact hs
        rw [if_pos hs2]
        exact congrArg Prod.fst (processSubject_idem fail e)
      · have h1 : (if strStarts "sub-" e.name then (processSubject fail e).1 else e) = e :=
          if_neg hs
        rw [h1, if_neg hs]
    have hsum2 : (((root.subjects.map (fun e => if strStarts "sub-" e.name then
        (processSubject fail e).1 else e)).filter
          (fun d => strStarts "sub-" d.name)).map
        (fun d => (processSubject fail d).2)).sum =
        ((root.subjects.filter (fun d => strStarts "sub-" d.name)).map
          (fun d => (processSubject fail d).2)).sum := by
      rw [hfilter, List.map_map]
      congr 1
      apply List.map_congr_left
      intro d hd
      simp only [Function.comp]
      have hp : strStarts "sub-" d.name = true := (List.mem_filter.mp hd).2
      have h1 : (if strStarts "sub-" d.name then (processSubject fail d).1 else d) =
          (processSubject fail d).1 := if_pos hp
      rw [h1]
      exact congrArg Prod.snd (processSubject_idem fail d)
    rw [hmap2, hsum2]
  · unfold recreate_correct_files at h
    rw [if_neg hall] at h
    exact Option.noConfusion h

/-- The C5 witness root: one well-formed subject. -/
def c5root : Root :=
  ⟨[⟨"sub-013", some [⟨"sub-013_task-visualoddball_eeg.vmrk", "W", 7⟩,
      ⟨"sub-013_task-visualoddball_eeg.eeg", "D", 8⟩], []⟩], []⟩

/-- The filesystem after one run over `c5root`: both targets appended. -/
def c5root1 : Root :=
  ⟨[⟨"sub-013", some [⟨"sub-013_task-visualoddball_eeg.vmrk", "W", 7⟩,
      ⟨"sub-013_task-visualoddball_eeg.eeg", "D", 8⟩,
      ⟨"COCOA_025_VO.vmrk", "W", 7⟩,
      ⟨"COCOA_025_VO.eeg", "D", 8⟩], []⟩], []⟩

/-- Witness for C5 at a concrete run: the second run reproduces the first
run's filesystem and counters exactly. -/
theorem c5_idempotent_rerun_w :
    (c5root.subjects.map (fun d => d.name)).Nodup ∧
    recreate_correct_files (fun _ _ => false) c5root = some (c5root1, (1, 1, 0)) ∧
    recreate_correct_files (fun _ _ => false) c5root1 = some (c5root1, (1, 1, 0)) :=
  ⟨by decide, by decide,
    c5_idempotent_rerun (fun _ _ => false) c5root c5root1 (1, 1, 0) (by decide)
      (by decide)⟩

/-- The glob patterns of the cleanup scripts, `COCOA_*_VO.*` and
`SASA_*_VO.*`: a name matches iff it decomposes as the series tag followed
by anything, `_VO.`, and anything (the `*` matches any run of
non-separator characters, including the empty one). -/
def matchTarget (name : String) : Bool :=
  ("COCOA_".data.isPrefixOf name.data && decide ("_VO.".data <:+: name.data.drop 6))
  || ("SASA_".data.isPrefixOf name.data && decide ("_VO.".data <:+: name.data.drop 5))

/-- Deleting the matching files of one directory listing
(`os.chmod` + `unlink` per file): returns the surviving listing and the
`(deleted_count, error_count)` deltas; `delFail` tells which deletions
raise. -/
def cleanupList (delFail : String → Bool) (files : List FileEntry) :
    List FileEntry × (Nat × Nat) :=
  (files.filter (fun f => !(matchTarget f.fname) || delFail f.fname),
   (files.countP (fun f => matchTarget f.fname && !(delFail f.fname)),
    files.countP (fun f => matchTarget f.fname && delFail f.fname)))

/-- Cleanup restricted to one subject directory (its own files and its
`eeg` subdirectory; `rglob` descends into both). -/
def cleanupSubject (delFail : String → Bool) (d : SubjectDir) :
    SubjectDir × (Nat × Nat) :=
  match d.eeg with
  | none => ((⟨d.name, none, (cleanupList delFail d.subOther).1⟩ : SubjectDir),
      (cleanupList delFail d.subOther).2)
  | some fs => ((⟨d.name, some (cleanupList delFail fs).1,
      (cleanupList delFail d.subOther).1⟩ : SubjectDir),
      (cleanupList delFail fs).2 + (cleanupList delFail d.subOther).2)

/-- Embedding of `cleanup_files` (`cleanup_files.py` lines 9–44): recursively find every
file under the root matching `COCOA_*_VO.*` or `SASA_*_VO.*`, delete each,
count deletions and per-file errors, and continue past failures. -/
def cleanup_files (delFail : String → Bool) (root : Root) : Root × (Nat × Nat) :=
  (⟨root.subjects.map (fun d => (cleanupSubject delFail d).1),
    (cleanupList delFail root.rootFiles).1⟩,
   (cleanupList delFail root.rootFiles).2 +
     ((root.subjects.map (fun d => (cleanupSubject delFail d).2)).sum))

/-- Every file anywhere under the root: top-level files and each
directory's own and `eeg` files. -/
def allFiles (root : Root) : List FileEntry :=
  root.rootFiles ++ root.subjects.foldr
    (fun d acc => d.subOther ++ d.eeg.getD [] ++ acc) []

/-- Membership in `allFiles` unfolded. -/
theorem mem_allFiles (r : Root) (f : FileEntry) :
    f ∈ allFiles r ↔ f ∈ r.rootFiles ∨
      ∃ d ∈ r.subjects, f ∈ d.subOther ∨ f ∈ d.eeg.getD [] := by
  unfold allFiles
  rw [List.mem_append]
  have aux : ∀ L : List SubjectDir,
      f ∈ L.foldr (fun d acc => d.subOther ++ d.eeg.getD [] ++ acc) [] ↔
        ∃ d ∈ L, f ∈ d.subOther ∨ f ∈ d.eeg.getD [] := by
    intro L
    induction L with
    | nil => simp
    | cons d ds ih =>
      simp only [List.foldr_cons, List.mem_append, ih, List.mem_cons]
      constructor
      · rintro ((h | h) | ⟨x, hx, hfx⟩)
        · exact ⟨d, Or.inl rfl, Or.inl h⟩
        · exact ⟨d, Or.inl rfl, Or.inr h⟩
        · exact ⟨x, Or.inr hx, hfx⟩
      · rintro ⟨x, rfl | hx, hfx⟩
        · rcases hfx with h | h
          · exact Or.inl (Or.inl h)
          · exact Or.inl (Or.inr h)
        · exact Or.inr ⟨x, hx, hfx⟩
  rw [aux]

/-- A file surviving a failure-free `cleanupList` does not match the
patterns. -/
theorem cleanupList_no_match (files : List FileEntry) (f : FileEntry)
    (hf : f ∈ (cleanupList (fun _ => false) files).1) :
    matchTarget f.fname = false := by
  unfold cleanupList at hf
  have hp := (List.mem_filter.mp hf).2
  simp only [Bool.or_false, Bool.not_eq_true'] at hp
  exact hp

/-- A non-matching file of a listing survives `cleanupList`. -/
theorem cleanupList_keeps (delFail : String → Bool) (files : List FileEntry)
    (f : FileEntry) (hf : f ∈ files) (hm : matchTarget f.fname = false) :
    f ∈ (cleanupList delFail files).1 := by
  unfold cleanupList
  exact List.mem_filter.mpr ⟨hf, by rw [hm]; rfl⟩

/-- Cleanup keeps a subject directory's name. -/
theorem cleanupSubject_name (delFail : String → Bool) (d : SubjectDir) :
    ((cleanupSubject delFail d).1).name = d.name := by
  unfold cleanupSubject
  split <;> rfl

/-- Cleanup filters a subject directory's own files. -/
theorem cleanupSubject_subOther (delFail : String → Bool) (d : SubjectDir) :
    ((cleanupSubject delFail d).1).subOther = (cleanupList delFail d.subOther).1 := by
  unfold cleanupSubject
  split <;> rfl

/-- Cleanup of a directory without an `eeg` subdirectory leaves none. -/
theorem cleanupSubject_eeg_none (delFail : String → Bool) (d : SubjectDir)
    (h : d.eeg = none) : ((cleanupSubject delFail d).1).eeg = none := by
  unfold cleanupSubject
  split
  · rfl
  · rename_i fs' h'
    exact absurd (h.symm.trans h') (by simp)

/-- Cleanup filters the `eeg` subdirectory's files. -/
theorem cleanupSubject_eeg_some (delFail : String → Bool) (d : SubjectDir)
    (fs : List FileEntry) (h : d.eeg = some fs) :
    ((cleanupSubject delFail d).1).eeg = some (cleanupList delFail fs).1 := by
  unfold cleanupSubject
  split
  · rename_i h'
    exact absurd (h.symm.trans h') (by simp)
  · rename_i fs' h'
    cases h.symm.trans h'
    rfl

/-- C6: round trip.  After running the walker, running the cleanup with the
patterns `COCOA_*_VO.*` and `SASA_*_VO.*` (and no deletion failures)
removes every file the mapper can name — every mapper output matches the
patterns — leaving no pattern-matching file anywhere under the root, while
every non-matching file (in particular every source recording) survives;
pre-existing files colliding with the patterns are deleted with the rest,
the spec's explicit caveat. -/
theorem c6_roundtrip_cleanup (fail : String → String → Bool) (root r1 : Root)
    (c1 : Counts) (h : recreate_correct_files fail root = some (r1, c1)) :
    (∀ n ext s, get_expected_filename n ext = some s → matchTarget s = true) ∧
    (∀ f ∈ allFiles (cleanup_files (fun _ => false) r1).1,
      matchTarget f.fname = false) ∧
    (∀ f ∈ allFiles r1, matchTarget f.fname = false →
      f ∈ allFiles (cleanup_files (fun _ => false) r1).1) := by
  refine ⟨?_, ?_, ?_⟩
  · intro n ext s hs
    obtain ⟨m, hm, hform | hform⟩ := get_eq_forms n ext s hs
    · subst hform
      have hdata : ("COCOA_" ++ py03d m ++ "_VO." ++ ext).data =
          "COCOA_".data ++ ((py03d m).data ++ ("_VO.".data ++ ext.data)) := by
        rw [str_data_append, str_data_append, str_data_append, List.append_assoc,
          List.append_assoc]
      unfold matchTarget
      simp only [Bool.or_eq_true, Bool.and_eq_true]
      left
      constructor
      · rw [hdata]
        simp only [ List.isPrefixOf_iff_prefix]
        exact ⟨_, rfl⟩
      · apply decide_eq_true
        have hdrop : ("COCOA_" ++ py03d m ++ "_VO." ++ ext).data.drop 6 =
            (py03d m).data ++ ("_VO.".data ++ ext.data) := by
          rw [hdata]
          exact List.drop_left' (by decide)
        rw [hdrop]
        exact ⟨(py03d m).data, ext.data, by rw [List.append_assoc]⟩
    · subst hform
      have hdata : ("SASA_" ++ py03d m ++ "_VO." ++ ext).data =
          "SASA_".data ++ ((py03d m).data ++ ("_VO.".data ++ ext.data)) := by
        rw [str_data_append, str_data_append, str_data_append, List.append_assoc,
          List.append_assoc]
      unfold matchTarget
      simp only [Bool.or_eq_true, Bool.and_eq_true]
      right
      constructor
      · rw [hdata]
        simp only [ List.isPrefixOf_iff_prefix]
        exact ⟨_, rfl⟩
      · apply decide_eq_true
        have hdrop : ("SASA_" ++ py03d m ++ "_VO." ++ ext).data.drop 5 =
            (py03d m).data ++ ("_VO.".data ++ ext.data) := by
          rw [hdata]
          exact List.drop_left' (by decide)
        rw [hdrop]
        exact ⟨(py03d m).data, ext.data, by rw [List.append_assoc]⟩
  · intro f hf
    rw [mem_allFiles] at hf
    rcases hf with hf | ⟨d, hd, hf⟩
    · have : (cleanup_files (fun _ => false) r1).1.rootFiles =
          (cleanupList (fun _ => false) r1.rootFiles).1 := rfl
      rw [this] at hf
      exact cleanupList_no_match r1.rootFiles f hf
    · have : (cleanup_files (fun _ => false) r1).1.subjects =
          r1.subjects.map (fun d => (cleanupSubject (fun _ => false) d).1) := rfl
      rw [this] at hd
      obtain ⟨d0, hd0, hd0e⟩ := List.mem_map.mp hd
      rcases hf with hf | hf
      · rw [← hd0e, cleanupSubject_subOther] at hf
        exact cleanupList_no_match d0.subOther f hf
      · rw [← hd0e] at hf
        rcases heeg : d0.eeg with _ | fs
        · rw [cleanupSubject_eeg_none _ _ heeg] at hf
          simp at hf
        · rw [cleanupSubject_eeg_some _ _ _ heeg] at hf
          simp only [Option.getD_some] at hf
          exact cleanupList_no_match fs f hf
  · intro f hf hm
    rw [mem_allFiles] at hf ⊢
    rcases hf with hf | ⟨d, hd, hf⟩
    · left
      have : (cleanup_files (fun _ => false) r1).1.rootFiles =
          (cleanupList (fun _ => false) r1.rootFiles).1 := rfl
      rw [this]
      exact cleanupList_keeps _ r1.rootFiles f hf hm
    · right
      have hsub : (cleanup_files (fun _ => false) r1).1.subjects =
          r1.subjects.map (fun d => (cleanupSubject (fun _ => false) d).1) := rfl
      rw [hsub]
      refine ⟨(cleanupSubject (fun _ => false) d).1, List.mem_map_of_mem _ hd, ?_⟩
      rcases hf with hf | hf
      · left
        rw [cleanupSubject_subOther]
        exact cleanupList_keeps _ d.subOther f hf hm
      · right
        rcases heeg : d.eeg with _ | fs
        · rw [heeg] at hf
          simp at hf
        · rw [heeg] at hf
          simp only [Option.getD_some] at hf
          rw [cleanupSubject_eeg_some _ _ _ heeg]
          simp only [Option.getD_some]
          exact cleanupList_keeps _ fs f hf hm

/-- The C6 witness root: one subject plus a stale pattern-colliding file
and an unrelated top-level file. -/
def c6root : Root :=
  ⟨[⟨"sub-001", some [⟨"sub-001_task-visualoddball_eeg.vmrk", "A", 1⟩,
      ⟨"sub-001_task-visualoddball_eeg.eeg", "B", 2⟩],
      [⟨"SASA_001_VO.eeg", "STALE", 0⟩]⟩],
   [⟨"README", "ok", 0⟩]⟩

/-- The filesystem after the walker runs over `c6root`. -/
def c6root1 : Root :=
  ⟨[⟨"sub-001", some [⟨"sub-001_task-visualoddball_eeg.vmrk", "A", 1⟩,
      ⟨"sub-001_task-visualoddball_eeg.eeg", "B", 2⟩,
      ⟨"COCOA_013_VO.vmrk", "A", 1⟩,
      ⟨"COCOA_013_VO.eeg", "B", 2⟩],
      [⟨"SASA_001_VO.eeg", "STALE", 0⟩]⟩],
   [⟨"README", "ok", 0⟩]⟩

/-- Witness for C6 at a concrete run: the walker creates the two targets,
the cleanup then deletes both targets and the stale colliding file (three
deletions, no errors), and the sources and the unrelated file survive. -/
theorem c6_roundtrip_cleanup_w :
    recreate_correct_files (fun _ _ => false) c6root = some (c6root1, (1, 1, 0)) ∧
    (∀ f ∈ allFiles (cleanup_files (fun _ => false) c6root1).1,
      matchTarget f.fname = false) ∧
    (∀ f ∈ allFiles c6root1, matchTarget f.fname = false →
      f ∈ allFiles (cleanup_files (fun _ => false) c6root1).1) ∧
    cleanup_files (fun _ => false) c6root1 =
      (⟨[⟨"sub-001", some [⟨"sub-001_task-visualoddball_eeg.vmrk", "A", 1⟩,
          ⟨"sub-001_task-visualoddball_eeg.eeg", "B", 2⟩], []⟩],
        [⟨"README", "ok", 0⟩]⟩, (3, 0)) :=
  ⟨by decide,
   (c6_roundtrip_cleanup (fun _ _ => false) c6root c6root1 (1, 1, 0) (by decide)).2.1,
   (c6_roundtrip_cleanup (fun _ _ => false) c6root c6root1 (1, 1, 0) (by decide)).2.2,
   by decide⟩

/-- Witness for the amended C10: a root whose directory `sub-extra` has a
token rejected by `int()` aborts before any subject is processed, a root
whose names all parse completes, and the model's `int()` agrees with
Python on whitespace, sign, underscore and non-ASCII-digit tokens. -/
theorem c10_amended_int_grammar_aborts_w :
    recreate_correct_files (fun _ _ => false)
      ⟨[⟨"sub-extra", some [], []⟩, ⟨"sub-001", some [], []⟩], []⟩ = none ∧
    (recreate_correct_files (fun _ _ => false)
      ⟨[⟨"sub-001", some [], []⟩], []⟩).isSome = true ∧
    pyInt "1_2" = some 12 ∧ pyInt " 5" = some 5 ∧ pyInt "+5" = some 5 ∧
    pyInt "٠١٢" = some 12 ∧ pyInt "００７" = some 7 ∧
    pyInt "extra" = none ∧ pyInt "_5" = none ∧ pyInt "5_" = none ∧
    pyInt "1__2" = none ∧ pyInt "" = none :=
  ⟨(c10_amended_int_grammar_aborts (fun _ _ => false)
      ⟨[⟨"sub-extra", some [], []⟩, ⟨"sub-001", some [], []⟩], []⟩).mpr
    ⟨⟨"sub-extra", some [], []⟩, by decide, by decide⟩,
   by decide, by decide, by decide, by decide, by decide, by decide,
   by decide, by decide, by decide, by decide, by decide⟩
